import Mathlib

/-!
Verification development for the dayz-map-gen terrain pipeline.

The embedding mirrors the three core stages of the Rust source:
generate_map (src/terrain.rs), refine_heightmap (src/refiner.rs) and
generate_biome_map / choose_biome (src/biomes.rs).  Machine floats are
modelled by real numbers; the coherent-noise sampler (the noise crate's
Perlin) is modelled as an abstract seed-indexed family of functions
noise : seed -> x -> y -> value, about which theorems assume only what
the Perlin implementation guarantees (range [-1, 1], and the gradient
noise vanishing at integer lattice points when that matters).
Heightmaps are row-major lists, cell (x, y) at index y * width + x.
-/

namespace DayZMapGen

/-- Rust float clamp: clamp x lo hi saturates x into the interval [lo, hi]
(for lo <= hi this is max lo (min x hi), exactly the Rust semantics). -/
noncomputable def clamp (x lo hi : ℝ) : ℝ := max lo (min x hi)

/-- MapConfig from src/config.rs (field for field; u32 sizes become Nat,
floats become reals). -/
structure MapConfig where
  width : ℕ
  height : ℕ
  scale_base : ℝ
  amp_base : ℝ
  scale_mid : ℝ
  amp_mid : ℝ
  scale_detail : ℝ
  amp_detail : ℝ
  seed : ℕ
  use_random_seed : Bool
  island_mode : Bool
  island_border : ℝ
  island_curve : ℝ
  sea_level : ℝ
  mountainous : ℝ
  overlay : ℝ

/-- BiomeConfig from src/config.rs. -/
structure BiomeConfig where
  base_temperature : ℝ
  base_humidity : ℝ
  temperature_variation : ℝ
  humidity_variation : ℝ
  biome_blend_factor : ℝ
  scale : ℝ
  seed : ℕ
  use_random_seed : Bool

/-- RefinerConfig from src/config.rs (curve_points and paint_map_overlay
are declared but never consumed by refine_heightmap). -/
structure RefinerConfig where
  height_offset : ℝ
  height_coeff : ℝ
  height_exponent : ℝ
  smoothness : ℝ
  curve_points : Option (List (ℝ × ℝ))
  paint_map_overlay : Option (List ℝ)

/-- Biome enumeration from src/biomes.rs, in source declaration order. -/
inductive Biome where
  | Ocean
  | Beach
  | Plains
  | Forest
  | Mountain
  | Snow
  | Desert
  | Swamp
  | Tundra
  | Jungle
deriving DecidableEq, Repr

/-- Rust discriminant of the Biome enum (the value produced by the
`as u8` cast in generate_biome_map): declaration order, starting at 0. -/
def Biome.toId : Biome → ℕ
  | .Ocean => 0
  | .Beach => 1
  | .Plains => 2
  | .Forest => 3
  | .Mountain => 4
  | .Snow => 5
  | .Desert => 6
  | .Swamp => 7
  | .Tundra => 8
  | .Jungle => 9

/-- The ten biome labels. -/
def allBiomes : List Biome :=
  [Biome.Ocean, Biome.Beach, Biome.Plains, Biome.Forest, Biome.Mountain,
   Biome.Snow, Biome.Desert, Biome.Swamp, Biome.Tundra, Biome.Jungle]

/-- choose_biome from src/biomes.rs lines 36-97: the decision tree is
reproduced condition for condition, in source order. -/
noncomputable def choose_biome (temp humidity : ℝ) (elev sea_level slope : ℝ) : Biome :=
  if elev < sea_level * 0.8 then Biome.Ocean
  else if elev < sea_level then Biome.Beach
  else if humidity > 0.7 ∧ temp > 0.7 then
    (if elev > 0.8 then Biome.Mountain else Biome.Jungle)
  else if temp < 0.2 then Biome.Snow
  else if slope > 0.5 then Biome.Mountain
  else if elev < sea_level * 1.2 then
    (if humidity > 0.7 then (if temp > 0.5 then Biome.Jungle else Biome.Swamp)
     else if humidity > 0.4 then (if temp > 0.5 then Biome.Forest else Biome.Plains)
     else (if temp > 0.7 then Biome.Desert else Biome.Plains))
  else if elev < sea_level * 1.5 then
    (if humidity > 0.5 then (if temp > 0.5 then Biome.Mountain else Biome.Tundra)
     else (if temp > 0.7 then Biome.Desert else Biome.Forest))
  else
    (if temp < 0.3 then Biome.Snow
     else if temp < 0.5 then Biome.Mountain
     else if temp < 0.7 then Biome.Forest
     else Biome.Desert)

/-- Seed of the Perlin instance sampled for the base elevation octave.
src/terrain.rs line 9 builds a single `Perlin::new().set_seed(seed)` that
serves all three octaves, so this is the raw seed. -/
def baseOctaveSeed (seed : ℕ) : ℕ := seed

/-- Seed of the Perlin instance sampled for the mid elevation octave
(the same instance as the base octave, src/terrain.rs line 9). -/
def midOctaveSeed (seed : ℕ) : ℕ := seed

/-- Seed of the Perlin instance sampled for the detail elevation octave
(the same instance as the base octave, src/terrain.rs line 9). -/
def detailOctaveSeed (seed : ℕ) : ℕ := seed

/-- Seed of the temperature noise, src/biomes.rs line 111:
`Perlin::new().set_seed(seed)`. -/
def temperatureSeed (seed : ℕ) : ℕ := seed

/-- Seed of the humidity noise, src/biomes.rs line 112:
`Perlin::new().set_seed(seed + 2000)`. -/
def humiditySeed (seed : ℕ) : ℕ := seed + 2000

/-- Per-cell slope from src/biomes.rs lines 139-152.  The source reads
`if false && x > 0 && y > 0 && x < width - 1 && y < height - 1 { ... }`,
a literal always-false guard in front of the neighbour-difference
computation, so the initial value 0.0 always survives; the guarded body
(mean absolute difference to the four axis-neighbours, times 1000, then
atan2(s, 1) / pi * 2, clamped to [0, 1]) is kept here verbatim behind the
same False conjunct. -/
noncomputable def slopeAt (heightmap : List ℝ) (width height : ℕ) (x y : ℕ) : ℝ :=
  let idx := y * width + x
  let h := heightmap.getD idx 0
  if False ∧ 0 < x ∧ 0 < y ∧ x < width - 1 ∧ y < height - 1 then
    let left := heightmap.getD (idx - 1) 0
    let right := heightmap.getD (idx + 1) 0
    let up := heightmap.getD (idx - width) 0
    let down := heightmap.getD (idx + width) 0
    let s := (|left - h| + |right - h| + |up - h| + |down - h|) / 4
    clamp (Real.arctan (s * 1000) / Real.pi * 2) 0 1
  else 0

/-- Modelled from the spec (claim C3): the slope the spec says is used for
classification — for interior cells, the mean absolute elevation
difference to the four axis-neighbours, converted to a normalised
steepness via clamp(atan(slope) / (pi / 2), 0, 1); 0 on boundary cells.
(The spec additionally scales by 1000 before the arctangent; the claims
settled below hold with or without that factor.) -/
noncomputable def slopeSpec (heightmap : List ℝ) (width height : ℕ) (x y : ℕ) : ℝ :=
  let idx := y * width + x
  let h := heightmap.getD idx 0
  if 0 < x ∧ 0 < y ∧ x < width - 1 ∧ y < height - 1 then
    let left := heightmap.getD (idx - 1) 0
    let right := heightmap.getD (idx + 1) 0
    let up := heightmap.getD (idx - width) 0
    let down := heightmap.getD (idx + width) 0
    let s := (|left - h| + |right - h| + |up - h| + |down - h|) / 4
    clamp (Real.arctan s / (Real.pi / 2)) 0 1
  else 0

/-- Per-cell body of generate_biome_map, src/biomes.rs lines 109-163:
temperature and humidity are noise samples remapped into the configured
[min, max] bands, the slope comes from slopeAt, and the cell is
classified with choose_biome. -/
noncomputable def biomeAt (noise : ℕ → ℝ → ℝ → ℝ) (mc : MapConfig) (bc : BiomeConfig)
    (heightmap : List ℝ) (seed : ℕ) (x y : ℕ) : Biome :=
  let sea_level := clamp mc.sea_level 0 1
  let avg_temp := clamp ((bc.base_temperature + 10) / 50) 0 1
  let avg_hum := clamp (bc.base_humidity / 100) 0 1
  let temp_variation := clamp (bc.temperature_variation / 100) 0 1
  let hum_variation := clamp (bc.humidity_variation / 100) 0 1
  let min_temp := avg_temp - temp_variation
  let max_temp := avg_temp + temp_variation
  let min_hum := avg_hum - hum_variation
  let max_hum := avg_hum + hum_variation
  let h := heightmap.getD (y * mc.width + x) 0
  let slope := slopeAt heightmap mc.width mc.height x y
  let temp0 := (noise (temperatureSeed seed) ((x : ℝ) / bc.scale) ((y : ℝ) / bc.scale) + 1) / 2
  let hum0 := (noise (humiditySeed seed) ((x : ℝ) / bc.scale) ((y : ℝ) / bc.scale) + 1) / 2
  let temp := temp0 * (max_temp - min_temp) + min_temp
  let humidity := hum0 * (max_hum - min_hum) + min_hum
  choose_biome temp humidity h sea_level slope

/-- generate_biome_map from src/biomes.rs restricted to its biome-id
output (the preview images are presentation-only): the row-major vector
of Rust discriminants of the per-cell biomes. -/
noncomputable def generate_biome_map (noise : ℕ → ℝ → ℝ → ℝ) (mc : MapConfig)
    (bc : BiomeConfig) (heightmap : List ℝ) (seed : ℕ) : List ℕ :=
  (List.range (mc.height * mc.width)).map
    (fun i => (biomeAt noise mc bc heightmap seed (i % mc.width) (i / mc.width)).toId)

/-- Octave combination of generate_map, src/terrain.rs lines 34-43: three
octaves of the single Perlin instance, the mountainous shaping, the
amplitude combination, and the normalisation by the precomputed max_amp
with a clamp to [0, 1] (the local h right after line 43). -/
noncomputable def clampedHeight (noise : ℕ → ℝ → ℝ → ℝ) (cfg : MapConfig) (seed : ℕ)
    (x y : ℕ) : ℝ :=
  let max_mountainous := (1.5 : ℝ) ^ cfg.mountainous - 0.5
  let max_amp := max_mountainous * cfg.amp_base + cfg.amp_mid + cfg.amp_detail
  let base := (noise (baseOctaveSeed seed) ((x : ℝ) / cfg.scale_base) ((y : ℝ) / cfg.scale_base) + 1) / 2
  let mid := (noise (midOctaveSeed seed) ((x : ℝ) / cfg.scale_mid) ((y : ℝ) / cfg.scale_mid) + 1) / 2
  let detail := (noise (detailOctaveSeed seed) ((x : ℝ) / cfg.scale_detail) ((y : ℝ) / cfg.scale_detail) + 1) / 2
  let h0 := (base + 0.5) ^ cfg.mountainous
  let h1 := (h0 - 0.5) * cfg.amp_base + cfg.amp_mid * mid + cfg.amp_detail * detail
  clamp (h1 / max_amp) 0 1

/-- The island falloff multiplier of generate_map, src/terrain.rs lines
46-65: 1 - edge_strength ^ curve, where edge_strength sums the two
per-axis linear ramps inside the clamped border fraction. -/
noncomputable def islandFactor (cfg : MapConfig) (x y : ℕ) : ℝ :=
  let border := clamp cfg.island_border 0.01 0.5
  let curve := clamp cfg.island_curve 1 10
  let xf := (x : ℝ) / (cfg.width : ℝ)
  let yf := (y : ℝ) / (cfg.height : ℝ)
  let ex := if xf < border then 1 - xf / border
    else if xf > 1 - border then (xf - (1 - border)) / border else 0
  let ey := if yf < border then 1 - yf / border
    else if yf > 1 - border then (yf - (1 - border)) / border else 0
  1 - (ex + ey) ^ curve

/-- The cell height right before the overlay blend: the clamped octave
height, multiplied by the island falloff when island mode is on
(src/terrain.rs lines 45-67). -/
noncomputable def preOverlayHeight (noise : ℕ → ℝ → ℝ → ℝ) (cfg : MapConfig) (seed : ℕ)
    (x y : ℕ) : ℝ :=
  if cfg.island_mode then clampedHeight noise cfg seed x y * islandFactor cfg x y
  else clampedHeight noise cfg seed x y

/-- Per-cell body of generate_map, src/terrain.rs lines 28-75: the
pre-overlay height, blended against the optional previous heightmap when
overlay strength is below 0.999 and the previous map has the right
length (lines 15-18 and 69-72). -/
noncomputable def generateCell (noise : ℕ → ℝ → ℝ → ℝ) (cfg : MapConfig) (seed : ℕ)
    (previous : Option (List ℝ)) (x y : ℕ) : ℝ :=
  let overlay_strength := clamp (cfg.overlay / 100) 0 1
  let overlay_old := 1 - overlay_strength
  let h := preOverlayHeight noise cfg seed x y
  match previous with
  | some prev =>
      if overlay_strength < 0.999 ∧ prev.length = cfg.width * cfg.height then
        h * overlay_strength + prev.getD (y * cfg.width + x) 0 * overlay_old
      else h
  | none => h

/-- generate_map from src/terrain.rs restricted to its heightmap output
(the preview images are presentation-only): the row-major vector of
per-cell heights. -/
noncomputable def generate_map (noise : ℕ → ℝ → ℝ → ℝ) (cfg : MapConfig) (seed : ℕ)
    (previous : Option (List ℝ)) : List ℝ :=
  (List.range (cfg.height * cfg.width)).map
    (fun i => generateCell noise cfg seed previous (i % cfg.width) (i / cfg.width))

/-- The zero noise family.  The noise crate's Perlin gradient noise
vanishes at every integer lattice point for every seed, so on a map whose
cells only sample lattice points (for example a 1-by-1 map, which samples
only the origin) this family agrees with the Perlin sampler exactly. -/
noncomputable def noiseZero : ℕ → ℝ → ℝ → ℝ := fun _ _ _ => 0

open scoped Classical

/-- Rust `f32::powf` as a partial real power: a negative base raised to a
non-integer exponent yields NaN in IEEE arithmetic, modelled as none.
On the remaining inputs exercised by the pipeline (non-negative bases,
or integer exponents) the float power agrees with the real power and the
model returns it.  (The value +infinity from a zero base and negative
exponent has no finite-real counterpart and is not reached by any claim.) -/
noncomputable def powf (x y : ℝ) : Option ℝ :=
  if x < 0 ∧ ¬ ∃ n : ℤ, y = (n : ℝ) then none else some (x ^ y)

/-- The per-cell transform of refine_heightmap, src/refiner.rs lines
16-19: v is shifted by height_offset, scaled by height_coeff, then raised
to height_exponent. -/
noncomputable def transformCell (rc : RefinerConfig) (v : ℝ) : Option ℝ :=
  powf ((v + rc.height_offset) * rc.height_coeff) rc.height_exponent

/-- Collect a list of optional values, failing if any is none. -/
def sequenceOption : List (Option ℝ) → Option (List ℝ)
  | [] => some []
  | none :: _ => none
  | some x :: rest =>
      match sequenceOption rest with
      | none => none
      | some l => some (x :: l)

/-- Minimum of a list of reals as the Rust `iter().min_by` fold computes
it (0 on the empty list, where the Rust unwrap would panic instead). -/
noncomputable def listMin : List ℝ → ℝ
  | [] => 0
  | a :: rest => rest.foldl min a

/-- Maximum of a list of reals as the Rust `iter().max_by` fold computes
it (0 on the empty list, where the Rust unwrap would panic instead). -/
noncomputable def listMax : List ℝ → ℝ
  | [] => 0
  | a :: rest => rest.foldl max a

/-- refine_heightmap from src/refiner.rs.  The result is none where the
Rust call does not return a finite grid: when the transform produces a
NaN (whereupon the `partial_cmp(..).unwrap()` comparator inside min_by
panics as soon as two cells are compared), or when the grid is empty
(min_by on an empty iterator returns None and its unwrap panics).
Inputs whose length differs from width * height are outside every claim
and are mapped to none as well (a short input panics on indexing).
Otherwise: every cell is transformed, the min and max of the transformed
grid are taken, and if max - min > 0 every cell is renormalised to
(v - min) / (max - min); if not, the transformed grid is returned as is. -/
noncomputable def refine_heightmap (heightmap : List ℝ) (rc : RefinerConfig)
    (mc : MapConfig) : Option (List ℝ) :=
  if heightmap.length = mc.width * mc.height then
    match sequenceOption (heightmap.map (transformCell rc)) with
    | none => none
    | some t =>
        if t = [] then none
        else
          let mn := listMin t
          let mx := listMax t
          if mx - mn > 0 then some (t.map (fun v => (v - mn) / (mx - mn)))
          else some t
  else none

/-! Helper lemmas. -/

theorem toId_le_nine (b : Biome) : b.toId ≤ 9 := by
  cases b <;> decide

theorem clamp_mem (x lo hi : ℝ) (h : lo ≤ hi) : lo ≤ clamp x lo hi ∧ clamp x lo hi ≤ hi := by
  unfold clamp
  constructor
  · exact le_max_left lo (min x hi)
  · exact max_le h (min_le_right x hi)

/-! Claim C2: the concrete 2-by-2 classification scenario. -/

/-- Heightmap of the concrete scenario of claim C2: four cells, all 0.9. -/
noncomputable def hm22 : List ℝ := [0.9, 0.9, 0.9, 0.9]

/-- C2 counterexample: with elevation 0.9, sea level 0.4, temperature 0.9,
humidity 0.9 and slope 0, choose_biome returns Mountain, not Desert: the
`humidity > 0.7 && temp > 0.7` branch precedes the desert rules and its
`elev > 0.8` test selects Mountain. -/
theorem C2_counterexample :
    choose_biome 0.9 0.9 0.9 0.4 0 = Biome.Mountain ∧ Biome.Mountain ≠ Biome.Desert := by
  constructor
  · unfold choose_biome
    norm_num
  · decide

/-- C2 (amended): for the 2-by-2 heightmap with every cell 0.9, sea level
0.4, temperature 0.9, humidity 0.9 and slope 0, choose_biome classifies
every cell as Mountain. -/
theorem C2_every_cell_mountain (x y : ℕ) (hx : x < 2) (hy : y < 2) :
    choose_biome 0.9 0.9 (hm22.getD (y * 2 + x) 0) 0.4 0 = Biome.Mountain := by
  have hcell : hm22.getD (y * 2 + x) 0 = 0.9 := by
    interval_cases x <;> interval_cases y <;> rfl
  rw [hcell]
  unfold choose_biome
  norm_num

/-- Witness for C2_every_cell_mountain at the cell (0, 0). -/
theorem C2_every_cell_mountain_witness :
    choose_biome 0.9 0.9 (hm22.getD 0 0) 0.4 0 = Biome.Mountain :=
  C2_every_cell_mountain 0 0 (by norm_num) (by norm_num)

/-! Claim C3: the slope actually used by the classifier. -/

/-- Heightmap for the C3 counterexample: 3 by 3, a unit spike at the
interior cell (1, 1) surrounded by zeros. -/
noncomputable def hm3 : List ℝ := [0, 0, 0, 0, 1, 0, 0, 0, 0]

/-- C3 counterexample: at the interior cell (1, 1) of the 3-by-3 spike
map the code computes slope 0 (the neighbour-difference branch sits
behind a literal always-false guard), while the slope the claim
describes evaluates to clamp(atan(1) / (pi / 2), 0, 1) = 1 / 2. -/
theorem C3_counterexample :
    slopeAt hm3 3 3 1 1 = 0 ∧ slopeSpec hm3 3 3 1 1 = 1 / 2 := by
  constructor
  · unfold slopeAt
    simp
  · have hspec : slopeSpec hm3 3 3 1 1
        = clamp (Real.arctan ((|(0:ℝ) - 1| + |(0:ℝ) - 1| + |(0:ℝ) - 1| + |(0:ℝ) - 1|) / 4)
            / (Real.pi / 2)) 0 1 := by
      unfold slopeSpec
      rw [if_pos (by norm_num)]
      rfl
    rw [hspec]
    have habs : (|(0:ℝ) - 1| + |(0:ℝ) - 1| + |(0:ℝ) - 1| + |(0:ℝ) - 1|) / 4 = 1 := by
      rw [abs_sub_comm]
      norm_num
    rw [habs, Real.arctan_one]
    have hdiv : Real.pi / 4 / (Real.pi / 2) = 1 / 2 := by
      field_simp
      ring
    rw [hdiv]
    unfold clamp
    norm_num

/-- C3 (amended): the slope fed to choose_biome is 0 for every cell,
interior cells included — the neighbour-difference computation is
disabled by the constant-false guard, so the initial 0 always survives. -/
theorem C3_slope_always_zero (heightmap : List ℝ) (width height x y : ℕ) :
    slopeAt heightmap width height x y = 0 := by
  unfold slopeAt
  simp

/-! Claim C4: seeding of the noise channels. -/

/-- C4 counterexample: at base seed 0 the base, mid and detail elevation
octaves and the temperature channel all sample a noise function seeded
with the very same value 0 — the channel seeds are not pairwise distinct,
so no assignment of fixed non-overlapping offsets produces them. -/
theorem C4_counterexample :
    baseOctaveSeed 0 = midOctaveSeed 0 ∧ midOctaveSeed 0 = detailOctaveSeed 0 ∧
      temperatureSeed 0 = baseOctaveSeed 0 := by
  decide

/-- C4 (amended): the three elevation octaves all sample the single noise
instance seeded with the raw base seed, the temperature channel also uses
the raw base seed, and only the humidity channel adds a fixed offset
(+2000); the octaves are decorrelated only by their sampling scales, not
by seeding. -/
theorem C4_seed_offsets (seed : ℕ) :
    baseOctaveSeed seed = seed ∧ midOctaveSeed seed = seed ∧
      detailOctaveSeed seed = seed ∧ temperatureSeed seed = seed ∧
      humiditySeed seed = seed + 2000 :=
  ⟨rfl, rfl, rfl, rfl, rfl⟩

/-! Claim C8: classifier totality. -/

/-- C8: for every elevation, slope and sea level in [0, 1] and arbitrary
temperature and humidity, choose_biome returns one of the ten Biome
labels — every branch of the decision tree ends in a label and the final
else makes the tree total. -/
theorem C8_choose_biome_total (t hu e s sl : ℝ)
    (he0 : 0 ≤ e) (he1 : e ≤ 1) (hsl0 : 0 ≤ sl) (hsl1 : sl ≤ 1)
    (hs0 : 0 ≤ s) (hs1 : s ≤ 1) :
    choose_biome t hu e s sl ∈ allBiomes := by
  cases hb : choose_biome t hu e s sl <;> decide

/-- Witness for C8_choose_biome_total at all-arguments 1 / 2. -/
theorem C8_choose_biome_total_witness :
    choose_biome (1/2) (1/2) (1/2) (1/2) (1/2) ∈ allBiomes :=
  C8_choose_biome_total (1/2) (1/2) (1/2) (1/2) (1/2)
    (by norm_num) (by norm_num) (by norm_num) (by norm_num) (by norm_num) (by norm_num)

/-! Claim C10: validity of the emitted biome ids. -/

/-- C10: every entry of the biome-id vector produced by
generate_biome_map is at most 9, a valid discriminant of the ten-member
Biome enumeration (positions outside the grid read the default 0, which
is also at most 9). -/
theorem C10_biome_ids_valid (noise : ℕ → ℝ → ℝ → ℝ) (mc : MapConfig) (bc : BiomeConfig)
    (heightmap : List ℝ) (seed : ℕ) (i : ℕ) :
    (generate_biome_map noise mc bc heightmap seed).getD i 0 ≤ 9 := by
  unfold generate_biome_map
  by_cases hlt : i < mc.height * mc.width
  · rw [List.getD_eq_getElem _ 0 (by simpa using hlt)]
    simp only [List.getElem_map, List.getElem_range]
    exact toId_le_nine _
  · rw [List.getD_eq_default _ 0 (by simpa using Nat.le_of_not_lt hlt)]
    norm_num

/-! Helper lemmas for the refiner. -/

theorem foldl_min_le_init (l : List ℝ) : ∀ a : ℝ, l.foldl min a ≤ a := by
  induction l with
  | nil => intro a; simp
  | cons b l ih =>
      intro a
      rw [List.foldl_cons]
      exact le_trans (ih (min a b)) (min_le_left a b)

theorem foldl_min_le_mem (l : List ℝ) : ∀ a x : ℝ, x ∈ l → l.foldl min a ≤ x := by
  induction l with
  | nil => intro a x hx; simp at hx
  | cons b l ih =>
      intro a x hx
      rw [List.foldl_cons]
      rcases List.mem_cons.mp hx with rfl | hmem
      · exact le_trans (foldl_min_le_init l (min a x)) (min_le_right a x)
      · exact ih (min a b) x hmem

theorem init_le_foldl_max (l : List ℝ) : ∀ a : ℝ, a ≤ l.foldl max a := by
  induction l with
  | nil => intro a; simp
  | cons b l ih =>
      intro a
      rw [List.foldl_cons]
      exact le_trans (le_max_left a b) (ih (max a b))

theorem mem_le_foldl_max (l : List ℝ) : ∀ a x : ℝ, x ∈ l → x ≤ l.foldl max a := by
  induction l with
  | nil => intro a x hx; simp at hx
  | cons b l ih =>
      intro a x hx
      rw [List.foldl_cons]
      rcases List.mem_cons.mp hx with rfl | hmem
      · exact le_trans (le_max_right a x) (init_le_foldl_max l (max a x))
      · exact ih (max a b) x hmem

theorem listMin_le (t : List ℝ) (x : ℝ) (hx : x ∈ t) : listMin t ≤ x := by
  cases t with
  | nil => simp at hx
  | cons a rest =>
      unfold listMin
      rcases List.mem_cons.mp hx with rfl | hmem
      · exact foldl_min_le_init rest x
      · exact foldl_min_le_mem rest a x hmem

theorem le_listMax (t : List ℝ) (x : ℝ) (hx : x ∈ t) : x ≤ listMax t := by
  cases t with
  | nil => simp at hx
  | cons a rest =>
      unfold listMax
      rcases List.mem_cons.mp hx with rfl | hmem
      · exact init_le_foldl_max rest x
      · exact mem_le_foldl_max rest a x hmem

theorem sequenceOption_length : ∀ (l : List (Option ℝ)) (t : List ℝ),
    sequenceOption l = some t → t.length = l.length := by
  intro l
  induction l with
  | nil =>
      intro t h
      unfold sequenceOption at h
      simp at h
      subst h
      rfl
  | cons o rest ih =>
      intro t h
      cases o with
      | none => exact absurd h (by unfold sequenceOption; simp)
      | some x =>
          unfold sequenceOption at h
          cases hrec : sequenceOption rest with
          | none => rw [hrec] at h; simp at h
          | some l2 =>
              rw [hrec] at h
              simp at h
              subst h
              simp [ih l2 hrec]

theorem sequenceOption_total : ∀ l : List (Option ℝ), (∀ o ∈ l, ∃ x, o = some x) →
    ∃ t, sequenceOption l = some t := by
  intro l
  induction l with
  | nil => intro _; exact ⟨[], rfl⟩
  | cons o rest ih =>
      intro h
      rcases h o (List.mem_cons_self o rest) with ⟨x, rfl⟩
      rcases ih (fun o ho => h o (List.mem_cons_of_mem _ ho)) with ⟨t, ht⟩
      refine ⟨x :: t, ?_⟩
      unfold sequenceOption
      rw [ht]

theorem sequenceOption_map_some : ∀ l : List ℝ, sequenceOption (l.map some) = some l := by
  intro l
  induction l with
  | nil => rfl
  | cons x rest ih =>
      rw [List.map_cons]
      unfold sequenceOption
      rw [ih]

theorem transformCell_identity (rc : RefinerConfig) (ho : rc.height_offset = 0)
    (hc : rc.height_coeff = 1) (he : rc.height_exponent = 1) (v : ℝ) :
    transformCell rc v = some v := by
  unfold transformCell powf
  rw [ho, hc, he]
  rw [if_neg]
  · rw [add_zero, mul_one, Real.rpow_one]
  · rintro ⟨-, hnint⟩
    exact hnint ⟨1, by norm_num⟩

theorem refine_heightmap_eq (heightmap : List ℝ) (rc : RefinerConfig) (mc : MapConfig)
    (t : List ℝ)
    (hlen : heightmap.length = mc.width * mc.height)
    (ht : sequenceOption (heightmap.map (transformCell rc)) = some t) :
    refine_heightmap heightmap rc mc
      = if t = [] then none
        else if listMax t - listMin t > 0
          then some (t.map (fun v => (v - listMin t) / (listMax t - listMin t)))
          else some t := by
  unfold refine_heightmap
  rw [if_pos hlen, ht]

/-- Identity refiner parameters: offset 0, coefficient 1, exponent 1. -/
def rcId : RefinerConfig :=
  { height_offset := 0, height_coeff := 1, height_exponent := 1,
    smoothness := 0, curve_points := none, paint_map_overlay := none }

/-- A 2-by-1 map configuration (only the dimensions matter to the
refiner). -/
def mc21 : MapConfig :=
  { width := 2, height := 1, scale_base := 1, amp_base := 1, scale_mid := 1,
    amp_mid := 0, scale_detail := 1, amp_detail := 0, seed := 0,
    use_random_seed := false, island_mode := false, island_border := 0.1,
    island_curve := 1, sea_level := 0.4, mountainous := 1, overlay := 100 }

theorem listMin_pair (a b : ℝ) : listMin [a, b] = min a b := rfl

theorem listMax_pair (a b : ℝ) : listMax [a, b] = max a b := rfl

/-! Claim C6: the structure of refine_heightmap. -/

/-- C6: on a grid of the configured size whose cells all transform to
defined values, refine_heightmap first applies
v = ((v + height_offset) * height_coeff) ^ height_exponent to every cell,
then takes the transformed grid's min and max; when max - min > 0 every
cell is renormalised to (v - min) / (max - min) and all outputs land in
[0, 1]; when max = min the transformed grid is returned unnormalised. -/
theorem C6_refine_structure (heightmap : List ℝ) (rc : RefinerConfig) (mc : MapConfig)
    (t : List ℝ)
    (hlen : heightmap.length = mc.width * mc.height)
    (hne : heightmap ≠ [])
    (ht : sequenceOption (heightmap.map (transformCell rc)) = some t) :
    (listMax t - listMin t > 0 →
        refine_heightmap heightmap rc mc
          = some (t.map (fun v => (v - listMin t) / (listMax t - listMin t)))
        ∧ ∀ v ∈ t.map (fun v => (v - listMin t) / (listMax t - listMin t)), 0 ≤ v ∧ v ≤ 1)
    ∧ (listMax t = listMin t → refine_heightmap heightmap rc mc = some t) := by
  have htne : t ≠ [] := by
    have hlt := sequenceOption_length _ _ ht
    rw [List.length_map] at hlt
    intro h
    apply hne
    apply List.length_eq_zero.mp
    rw [← hlt, h]
    rfl
  have hr := refine_heightmap_eq heightmap rc mc t hlen ht
  rw [if_neg htne] at hr
  constructor
  · intro hpos
    rw [hr, if_pos hpos]
    refine ⟨rfl, ?_⟩
    intro v hv
    rcases List.mem_map.mp hv with ⟨w, hw, rfl⟩
    have h1 : listMin t ≤ w := listMin_le t w hw
    have h2 : w ≤ listMax t := le_listMax t w hw
    constructor
    · exact div_nonneg (by linarith) (le_of_lt hpos)
    · rw [div_le_one hpos]
      linarith
  · intro heq
    rw [hr, heq, if_neg (by simp)]

/-- Witness for C6_refine_structure: the non-flat grid [0, 1/2] with
identity transform parameters renormalises to [0, 1]. -/
theorem C6_refine_structure_witness :
    refine_heightmap [0, 1/2] rcId mc21 = some [0, 1] := by
  have ht : sequenceOption (([0, 1/2] : List ℝ).map (transformCell rcId)) = some [0, 1/2] := by
    have h0 : transformCell rcId 0 = some 0 := transformCell_identity rcId rfl rfl rfl 0
    have h12 : transformCell rcId (1/2) = some (1/2) := transformCell_identity rcId rfl rfl rfl (1/2)
    rw [List.map_cons, List.map_cons, List.map_nil, h0, h12]
    rfl
  have hmin : listMin [(0:ℝ), 1/2] = 0 := by
    rw [listMin_pair]
    norm_num
  have hmax : listMax [(0:ℝ), 1/2] = 1/2 := by
    rw [listMax_pair]
    norm_num
  have h := (C6_refine_structure [0, 1/2] rcId mc21 [0, 1/2] rfl (by simp) ht).1
    (by rw [hmin, hmax]; norm_num)
  rw [h.1, hmin, hmax]
  norm_num

/-! Claim C7: refinement under identity parameters. -/

/-- C7 counterexample: the non-flat input [1/5, 2/5], all values inside
[0, 1], is not returned unchanged by the identity-parameter refinement:
the renormalisation stretches it to [0, 1]. -/
theorem C7_counterexample :
    refine_heightmap [1/5, 2/5] rcId mc21 = some [0, 1]
      ∧ some [(0:ℝ), 1] ≠ some [(1:ℝ)/5, 2/5] := by
  constructor
  · have ht : sequenceOption (([1/5, 2/5] : List ℝ).map (transformCell rcId))
        = some [1/5, 2/5] := by
      have h1 : transformCell rcId (1/5) = some (1/5) := transformCell_identity rcId rfl rfl rfl _
      have h2 : transformCell rcId (2/5) = some (2/5) := transformCell_identity rcId rfl rfl rfl _
      rw [List.map_cons, List.map_cons, List.map_nil, h1, h2]
      rfl
    have hmin : listMin [(1:ℝ)/5, 2/5] = 1/5 := by
      rw [listMin_pair]
      norm_num
    have hmax : listMax [(1:ℝ)/5, 2/5] = 2/5 := by
      rw [listMax_pair]
      norm_num
    have hr := refine_heightmap_eq [1/5, 2/5] rcId mc21 [1/5, 2/5] rfl ht
    rw [if_neg (by simp), hmin, hmax, if_pos (by norm_num)] at hr
    rw [hr]
    norm_num
  · norm_num

/-- C7 (amended): with identity parameters the refinement leaves an input
unchanged exactly when renormalisation is the identity on it: a grid
whose minimum is 0 and maximum is 1 is returned as is, and a flat grid is
returned as is; other grids are renormalised onto [0, 1]. -/
theorem C7_identity_refine (heightmap : List ℝ) (rc : RefinerConfig) (mc : MapConfig)
    (ho : rc.height_offset = 0) (hc : rc.height_coeff = 1) (he : rc.height_exponent = 1)
    (hlen : heightmap.length = mc.width * mc.height)
    (hne : heightmap ≠ []) :
    ((listMin heightmap = 0 ∧ listMax heightmap = 1) →
        refine_heightmap heightmap rc mc = some heightmap)
    ∧ (listMax heightmap = listMin heightmap →
        refine_heightmap heightmap rc mc = some heightmap) := by
  have hmapid : heightmap.map (transformCell rc) = heightmap.map some :=
    List.map_congr_left (fun v _ => transformCell_identity rc ho hc he v)
  have ht : sequenceOption (heightmap.map (transformCell rc)) = some heightmap := by
    rw [hmapid, sequenceOption_map_some]
  have hr := refine_heightmap_eq heightmap rc mc heightmap hlen ht
  rw [if_neg hne] at hr
  constructor
  · rintro ⟨hmin, hmax⟩
    rw [hr, hmin, hmax, if_pos (by norm_num)]
    simp
  · intro hflat
    rw [hr, hflat, if_neg (by simp)]

/-- Witness for C7_identity_refine: the already fully normalised grid
[0, 1] is returned unchanged. -/
theorem C7_identity_refine_witness :
    refine_heightmap [0, 1] rcId mc21 = some [0, 1] := by
  apply (C7_identity_refine [0, 1] rcId mc21 rfl rfl rfl rfl (by simp)).1
  constructor
  · rw [listMin_pair]
    norm_num
  · rw [listMax_pair]
    norm_num

/-! Claim C9: refinement totality. -/

/-- Refiner parameters of the C9 counterexample: height offset -2,
coefficient 1 and the non-integer exponent 1/2. -/
def rcBad : RefinerConfig :=
  { height_offset := -2, height_coeff := 1, height_exponent := 0.5,
    smoothness := 0, curve_points := none, paint_map_overlay := none }

/-- C9 counterexample: on the 2-by-1 grid [1, 1] with offset -2 and
exponent 1/2 every transformed cell is (-1) ^ (1/2), a NaN, and the
min-computation's partial_cmp unwrap panics: the call does not complete
with a grid. -/
theorem C9_counterexample :
    refine_heightmap [1, 1] rcBad mc21 = none := by
  have h1 : transformCell rcBad 1 = none := by
    show powf ((1 + -2) * 1) 0.5 = none
    unfold powf
    rw [if_pos]
    constructor
    · norm_num
    · rintro ⟨n, hn⟩
      have h2 : (1 : ℤ) = 2 * n := by
        have hr : (1 : ℝ) = 2 * (n : ℝ) := by
          rw [← hn]
          norm_num
        exact_mod_cast hr
      omega
  have hseq : sequenceOption (([1, 1] : List ℝ).map (transformCell rcBad)) = none := by
    rw [List.map_cons, h1]
    rfl
  unfold refine_heightmap
  rw [if_pos (by rfl), hseq]

/-- C9 (amended): refine_heightmap completes (returns a grid) for every
non-empty input of the configured size whose transformed bases are
non-negative, so that no NaN arises from the power; with a negative
transformed base and a non-integer exponent (e.g. offset -2, exponent
1/2) the power is NaN and the comparator unwrap inside the min
computation panics. -/
theorem C9_no_panic (heightmap : List ℝ) (rc : RefinerConfig) (mc : MapConfig)
    (hlen : heightmap.length = mc.width * mc.height)
    (hne : heightmap ≠ [])
    (hsafe : ∀ v ∈ heightmap, 0 ≤ (v + rc.height_offset) * rc.height_coeff) :
    refine_heightmap heightmap rc mc ≠ none := by
  have htot : ∀ o ∈ heightmap.map (transformCell rc), ∃ x, o = some x := by
    intro o ho
    rcases List.mem_map.mp ho with ⟨v, hv, rfl⟩
    unfold transformCell powf
    rw [if_neg]
    · exact ⟨_, rfl⟩
    · rintro ⟨hneg, -⟩
      exact absurd (hsafe v hv) (not_le.mpr hneg)
  rcases sequenceOption_total _ htot with ⟨t, ht⟩
  have htne : t ≠ [] := by
    have hlt := sequenceOption_length _ _ ht
    rw [List.length_map] at hlt
    intro h
    apply hne
    apply List.length_eq_zero.mp
    rw [← hlt, h]
    rfl
  have hr := refine_heightmap_eq heightmap rc mc t hlen ht
  rw [if_neg htne] at hr
  rw [hr]
  by_cases hrange : listMax t - listMin t > 0
  · rw [if_pos hrange]
    exact Option.some_ne_none _
  · rw [if_neg hrange]
    exact Option.some_ne_none _

/-- Witness for C9_no_panic: identity parameters on the grid [1, 1]. -/
theorem C9_no_panic_witness :
    refine_heightmap [1, 1] rcId mc21 ≠ none :=
  C9_no_panic [1, 1] rcId mc21 rfl (by simp)
    (by
      intro v hv
      simp at hv
      subst hv
      norm_num [rcId])

/-! Helper lemmas for generate_map. -/

theorem clamp_of_mem (x lo hi : ℝ) (h1 : lo ≤ x) (h2 : x ≤ hi) : clamp x lo hi = x := by
  unfold clamp
  rw [min_eq_left h2, max_eq_right h1]

theorem generateCell_none (noise : ℕ → ℝ → ℝ → ℝ) (cfg : MapConfig) (seed : ℕ) (x y : ℕ) :
    generateCell noise cfg seed none x y = preOverlayHeight noise cfg seed x y := rfl

theorem generateCell_some (noise : ℕ → ℝ → ℝ → ℝ) (cfg : MapConfig) (seed : ℕ)
    (prev : List ℝ) (x y : ℕ) :
    generateCell noise cfg seed (some prev) x y
      = if clamp (cfg.overlay / 100) 0 1 < 0.999 ∧ prev.length = cfg.width * cfg.height
        then preOverlayHeight noise cfg seed x y * clamp (cfg.overlay / 100) 0 1
          + prev.getD (y * cfg.width + x) 0 * (1 - clamp (cfg.overlay / 100) 0 1)
        else preOverlayHeight noise cfg seed x y := rfl

theorem clampedHeight_mem (noise : ℕ → ℝ → ℝ → ℝ) (cfg : MapConfig) (seed : ℕ) (x y : ℕ) :
    0 ≤ clampedHeight noise cfg seed x y ∧ clampedHeight noise cfg seed x y ≤ 1 :=
  clamp_mem _ 0 1 (by norm_num)

theorem getD_bound (l : List ℝ) (i : ℕ) (h : ∀ v ∈ l, 0 ≤ v ∧ v ≤ 1) :
    0 ≤ l.getD i 0 ∧ l.getD i 0 ≤ 1 := by
  by_cases hi : i < l.length
  · rw [List.getD_eq_getElem l 0 hi]
    exact h _ (List.getElem_mem hi)
  · rw [List.getD_eq_default l 0 (Nat.le_of_not_lt hi)]
    norm_num

theorem blend_mem (a b s : ℝ) (ha0 : 0 ≤ a) (ha1 : a ≤ 1) (hb0 : 0 ≤ b) (hb1 : b ≤ 1)
    (hs0 : 0 ≤ s) (hs1 : s ≤ 1) : 0 ≤ a * s + b * (1 - s) ∧ a * s + b * (1 - s) ≤ 1 := by
  constructor
  · have h1 := mul_nonneg ha0 hs0
    have h2 := mul_nonneg hb0 (by linarith : (0:ℝ) ≤ 1 - s)
    linarith
  · have h1 : a * s ≤ s := by nlinarith
    have h2 : b * (1 - s) ≤ 1 - s := by nlinarith
    linarith

theorem generateCell_mem (noise : ℕ → ℝ → ℝ → ℝ) (cfg : MapConfig) (seed : ℕ)
    (previous : Option (List ℝ)) (x y : ℕ)
    (hisl : cfg.island_mode = false)
    (hprev : ∀ p ∈ previous, ∀ v ∈ p, 0 ≤ v ∧ v ≤ 1) :
    0 ≤ generateCell noise cfg seed previous x y
      ∧ generateCell noise cfg seed previous x y ≤ 1 := by
  have hpre : preOverlayHeight noise cfg seed x y = clampedHeight noise cfg seed x y := by
    unfold preOverlayHeight
    rw [hisl]
    simp
  have hh := clampedHeight_mem noise cfg seed x y
  have hs := clamp_mem (cfg.overlay / 100) 0 1 (by norm_num)
  rcases previous with _ | p
  · rw [generateCell_none, hpre]
    exact hh
  · rw [generateCell_some, hpre]
    split_ifs with hc
    · have hg := getD_bound p (y * cfg.width + x) (hprev p rfl)
      exact blend_mem _ _ _ hh.1 hh.2 hg.1 hg.2 hs.1 hs.2
    · exact hh

theorem map_range_getD (l : List ℝ) (n : ℕ) (hn : l.length = n) :
    (List.range n).map (fun i => l.getD i 0) = l := by
  apply List.ext_getElem
  · simp [hn]
  · intro i h1 h2
    simp only [List.getElem_map, List.getElem_range]
    exact List.getD_eq_getElem l 0 h2

/-! Claim C1: range of the generated heightmap. -/

/-- Configuration of the C1 counterexample: a valid 1-by-1 island-mode
map (width = height = 1, all scales 1, sea level 0.4, island border 0.1,
island curve 1, mountainous 1) with base amplitude 1 and the other
amplitudes 0. -/
def cfgC1 : MapConfig :=
  { width := 1, height := 1, scale_base := 1, amp_base := 1, scale_mid := 1,
    amp_mid := 0, scale_detail := 1, amp_detail := 0, seed := 0,
    use_random_seed := false, island_mode := true, island_border := 0.1,
    island_curve := 1, sea_level := 0.4, mountainous := 1, overlay := 100 }

/-- C1 counterexample: on the valid island-mode configuration cfgC1 the
single cell of the generated heightmap is -1/2, outside [0, 1].  The
corner cell has edge strength 1 on each axis, so the falloff multiplier
is 1 - 2 ^ curve = -1 and the clamped height 1/2 turns negative.  (The
zero noise family used here agrees with the Perlin sampler of the source
at the origin lattice point, for every seed, so the counterexample is
realised by every actual run with these dimensions.) -/
theorem C1_counterexample :
    generate_map noiseZero cfgC1 0 none = [-(1/2)] ∧ ¬ (0:ℝ) ≤ -(1/2) := by
  constructor
  · have hch : clampedHeight noiseZero cfgC1 0 0 0 = 1 / 2 := by
      unfold clampedHeight noiseZero cfgC1
      rw [clamp_of_mem _ _ _ (by norm_num [Real.rpow_one]) (by norm_num [Real.rpow_one])]
      norm_num [Real.rpow_one]
    have hif : islandFactor cfgC1 0 0 = -1 := by
      unfold islandFactor cfgC1
      rw [clamp_of_mem (0.1 : ℝ) 0.01 0.5 (by norm_num) (by norm_num),
        clamp_of_mem (1 : ℝ) 1 10 (by norm_num) (by norm_num)]
      norm_num [Real.rpow_one]
    have hc : generateCell noiseZero cfgC1 0 none 0 0 = -(1/2) := by
      rw [generateCell_none]
      unfold preOverlayHeight
      rw [show cfgC1.island_mode = true from rfl]
      rw [if_pos rfl, hch, hif]
      norm_num
    unfold generate_map
    rw [show cfgC1.height * cfgC1.width = 1 from rfl,
      show List.range 1 = [0] from rfl, List.map_cons, List.map_nil]
    rw [show (0 % cfgC1.width) = 0 from rfl, show (0 / cfgC1.width) = 0 from rfl, hc]
  · norm_num

/-- C1 (amended): with island mode disabled and a previous heightmap
whose cells lie in [0, 1] (or no previous map at all), every cell of the
generated heightmap is in [0, 1]: the octave height is clamped into
[0, 1] and the overlay blend is a convex combination.  With island mode
enabled the unclamped falloff can push corner cells below 0, as the
counterexample shows. -/
theorem C1_bounds (noise : ℕ → ℝ → ℝ → ℝ) (cfg : MapConfig) (seed : ℕ)
    (previous : Option (List ℝ))
    (hisl : cfg.island_mode = false)
    (hprev : ∀ p ∈ previous, ∀ v ∈ p, 0 ≤ v ∧ v ≤ 1) :
    ∀ i : ℕ, 0 ≤ (generate_map noise cfg seed previous).getD i 0
      ∧ (generate_map noise cfg seed previous).getD i 0 ≤ 1 := by
  intro i
  unfold generate_map
  by_cases hlt : i < cfg.height * cfg.width
  · rw [List.getD_eq_getElem _ 0 (by simpa using hlt)]
    simp only [List.getElem_map, List.getElem_range]
    exact generateCell_mem noise cfg seed previous _ _ hisl hprev
  · rw [List.getD_eq_default _ 0 (by simpa using Nat.le_of_not_lt hlt)]
    norm_num

/-- Witness for C1_bounds: the island-off configuration mc21 with no
previous map, at cell 0. -/
theorem C1_bounds_witness :
    0 ≤ (generate_map noiseZero mc21 0 none).getD 0 0
      ∧ (generate_map noiseZero mc21 0 none).getD 0 0 ≤ 1 :=
  C1_bounds noiseZero mc21 0 none rfl (by intro p hp; simp at hp) 0

/-! Claim C5: overlay blend boundary behaviour. -/

/-- mc21 with overlay strength 0. -/
def mc21zero : MapConfig := { mc21 with overlay := 0 }

/-- C5: with overlay = 100 the generated heightmap is identical with and
without a previous map (the blend branch is not taken, since the clamped
strength 1 is not below 0.999); with overlay = 0 and a previous map of
matching length, the output equals the previous map cell for cell (the
blend keeps 0 parts new and 1 part old). -/
theorem C5_overlay_boundary (noise : ℕ → ℝ → ℝ → ℝ) (cfg : MapConfig) (seed : ℕ)
    (prev : List ℝ) :
    (cfg.overlay = 100 →
        generate_map noise cfg seed (some prev) = generate_map noise cfg seed none)
    ∧ (cfg.overlay = 0 → prev.length = cfg.width * cfg.height →
        generate_map noise cfg seed (some prev) = prev) := by
  constructor
  · intro hov
    unfold generate_map
    apply List.map_congr_left
    intro i _
    rw [generateCell_some, generateCell_none, if_neg]
    rintro ⟨h1, -⟩
    rw [hov, clamp_of_mem _ _ _ (by norm_num) (by norm_num)] at h1
    norm_num at h1
  · intro hov hlen
    unfold generate_map
    have hs : clamp (cfg.overlay / 100) 0 1 = 0 := by
      rw [hov, clamp_of_mem _ _ _ (by norm_num) (by norm_num)]
      norm_num
    have hcell : ∀ i ∈ List.range (cfg.height * cfg.width),
        generateCell noise cfg seed (some prev) (i % cfg.width) (i / cfg.width)
          = prev.getD i 0 := by
      intro i _
      rw [generateCell_some, hs, if_pos ⟨by norm_num, hlen⟩]
      rw [Nat.div_add_mod' i cfg.width]
      ring
    rw [List.map_congr_left hcell]
    exact map_range_getD prev _ (by rw [hlen, Nat.mul_comm])

/-- Witness for C5_overlay_boundary: mc21 (overlay 100) ignores the
previous map [1/2, 1/2], and mc21zero (overlay 0) reproduces it. -/
theorem C5_overlay_boundary_witness :
    generate_map noiseZero mc21 0 (some [1/2, 1/2]) = generate_map noiseZero mc21 0 none
      ∧ generate_map noiseZero mc21zero 0 (some [1/2, 1/2]) = [1/2, 1/2] :=
  ⟨(C5_overlay_boundary noiseZero mc21 0 [1/2, 1/2]).1 rfl,
   (C5_overlay_boundary noiseZero mc21zero 0 [1/2, 1/2]).2 rfl rfl⟩

end DayZMapGen
